import Mathlib

set_option linter.unusedVariables false

/-!
Verification of the data-access façade in `src/tools/api.py`: cache-first
retrieval of prices and financial metrics backed by an IBKR provider adapter
(`src/tools/ibkr.py`).  Machine floats of the source are modelled as rationals;
the provider adapter is an explicit record of its two fetch operations, and
each façade call returns, besides its result, the cache after the call and the
number of provider invocations it performed.
-/

/-- One OHLCV row of the DataFrame returned by `IBKRClient.get_price_history`,
as consumed by `df.itertuples()` in `get_prices`.  The `time` field holds the
row's timestamp already rendered by `strftime("%Y-%m-%d %H:%M:%S")`; numeric
columns are rationals (`open` is a Lean keyword, hence `open_`). -/
structure Bar where
  open_ : Rat
  close : Rat
  high : Rat
  low : Rat
  volume : Rat
  time : String
deriving DecidableEq

/-- Price record (spec §3): OHLC decimals, integer volume, timestamp string. -/
structure Price where
  open_ : Rat
  close : Rat
  high : Rat
  low : Rat
  volume : Int
  time : String
deriving DecidableEq

/-- Stored form of a Price: the field map produced by `p.model_dump()`. -/
structure PriceDict where
  open_ : Rat
  close : Rat
  high : Rat
  low : Rat
  volume : Int
  time : String
deriving DecidableEq

/-- Model of `p.model_dump()` on a Price: field-by-field dump. -/
def Price.model_dump (p : Price) : PriceDict :=
  { open_ := p.open_, close := p.close, high := p.high, low := p.low,
    volume := p.volume, time := p.time }

/-- Model of `Price(**price)` reconstruction from a stored dict. -/
def PriceDict.toPrice (d : PriceDict) : Price :=
  { open_ := d.open_, close := d.close, high := d.high, low := d.low,
    volume := d.volume, time := d.time }

/-- Modelled from the spec: `src/data/models.py` is not among the sources.
Spec §3: FinancialMetrics has ticker, report_period, period, currency strings,
an optional decimal market_cap, and further optional metric fields defaulting
to absent.  `get_financial_metrics` initialises every field to `None` and only
ever assigns the five fields below, so the remaining always-absent optional
fields are omitted from the model. -/
structure FinancialMetrics where
  ticker : String
  report_period : String
  period : String
  currency : String
  market_cap : Option Rat
deriving DecidableEq

/-- Stored form of a FinancialMetrics record, as by `m.model_dump()`. -/
structure MetricsDict where
  ticker : String
  report_period : String
  period : String
  currency : String
  market_cap : Option Rat
deriving DecidableEq

/-- Model of `m.model_dump()` on a FinancialMetrics record. -/
def FinancialMetrics.model_dump (m : FinancialMetrics) : MetricsDict :=
  { ticker := m.ticker, report_period := m.report_period, period := m.period,
    currency := m.currency, market_cap := m.market_cap }

/-- Model of `FinancialMetrics(**metric)` reconstruction from a stored dict. -/
def MetricsDict.toMetrics (d : MetricsDict) : FinancialMetrics :=
  { ticker := d.ticker, report_period := d.report_period, period := d.period,
    currency := d.currency, market_cap := d.market_cap }

/-- A parsed fundamentals report: the XML document reduced to the list of its
elements as (tag, text) pairs, text being `""` for an element without text.
`ET.fromstring` is not modelled separately; the provider hands over the
already-parsed document. -/
abbrev Xml := List (String × String)

/-- Model of `root.findtext(".//TAG")`: the text of the first element carrying
the tag, `none` when no such element exists. -/
def findtext (tag : String) (doc : Xml) : Option String :=
  (doc.find? (fun e => e.1 == tag)).map (fun e => e.2)

/-- Python `a or b` on optional strings: `None` and `""` are falsy, the first
truthy operand wins, otherwise the value of `b` stands. -/
def pyOr (a b : Option String) : Option String :=
  match a with
  | some s => if s = "" then b else some s
  | none => b

/-- Value of a list of decimal digit characters, most significant first. -/
def digitsToNat (cs : List Char) : Nat :=
  cs.foldl (fun a c => a * 10 + (c.toNat - 48)) 0

/-- Model of Python `float(val)` on optionally signed plain decimal literals
("123", "-4.5", ".25"); it yields `none` exactly where the real call raises
`ValueError`.  Exponent, infinity, NaN, whitespace and digit-group forms of
the Python float grammar are outside the scope of this model, and the value is
exact (rational) rather than a binary float. -/
def pyFloat (s : String) : Option Rat :=
  let body : List Char → Option Rat := fun cs =>
    match cs.splitOn '.' with
    | [ds] =>
        if ds ≠ [] ∧ ds.all Char.isDigit then some (digitsToNat ds) else none
    | [as, bs] =>
        if (as ≠ [] ∨ bs ≠ []) ∧ as.all Char.isDigit ∧ bs.all Char.isDigit then
          some ((digitsToNat as : Rat) + (digitsToNat bs : Rat) / (10 : Rat) ^ bs.length)
        else none
    | _ => none
  match s.data with
  | '-' :: rest => (body rest).map (fun q => -q)
  | '+' :: rest => body rest
  | cs => body cs

/-- Python `int(x)` applied to a float: truncation toward zero. -/
def pyInt (q : Rat) : Int := if q < 0 then ⌈q⌉ else ⌊q⌋

/-- Digit-list builder behind `natStr`, structurally recursive on a fuel
argument so that it evaluates by kernel reduction; `n < fuel` suffices for the
fuel never to run out. -/
def natStrGo : Nat → Nat → List Char
  | 0, _ => []
  | fuel + 1, n =>
    if n < 10 then [Nat.digitChar n]
    else natStrGo fuel (n / 10) ++ [Nat.digitChar (n % 10)]

/-- Decimal digit string of a natural number, most significant digit first. -/
def natStr (n : Nat) : List Char := natStrGo (n + 1) n

/-- Python `str()` of an int — the `{limit}` interpolation of the metrics
cache key: decimal digits, `'-'`-prefixed for negatives. -/
def intStr : Int → String
  | Int.ofNat n => ⟨natStr n⟩
  | Int.negSucc n => ⟨'-' :: natStr (n + 1)⟩

/-- Cache key of `get_prices` (api.py line 24): the f-string
`"{ticker}_{start_date}_{end_date}"`. -/
def price_cache_key (ticker start_date end_date : String) : String :=
  ticker ++ "_" ++ start_date ++ "_" ++ end_date

/-- Cache key of `get_financial_metrics` (api.py line 60): the f-string
`"{ticker}_{period}_{end_date}_{limit}"`. -/
def metrics_cache_key (ticker period end_date : String) (limit : Int) : String :=
  ticker ++ "_" ++ period ++ "_" ++ end_date ++ "_" ++ intStr limit

/-- Exact-match lookup in one cache section. -/
def assocGet {α : Type} (m : List (String × α)) (k : String) : Option α :=
  (m.find? (fun e => e.1 == k)).map (fun e => e.2)

/-- Unconditional overwrite of one key in one cache section. -/
def assocSet {α : Type} (m : List (String × α)) (k : String) (v : α) :
    List (String × α) :=
  (k, v) :: m.filter (fun e => e.1 != k)

/-- Modelled from the spec: `src/data/cache.py` is not among the sources.
Spec §4.2: two independently keyed sections (prices, financial metrics),
exact-match `get` returning the stored value or absent, `set` overwriting
unconditionally.  Association lists keep the store executable. -/
structure Cache where
  prices : List (String × List PriceDict)
  financial_metrics : List (String × List MetricsDict)
deriving DecidableEq

/-- Modelled from the spec: cache get for the prices section. -/
def Cache.get_prices (c : Cache) (k : String) : Option (List PriceDict) :=
  assocGet c.prices k

/-- Modelled from the spec: cache set for the prices section. -/
def Cache.set_prices (c : Cache) (k : String) (v : List PriceDict) : Cache :=
  { c with prices := assocSet c.prices k v }

/-- Modelled from the spec: cache get for the financial-metrics section. -/
def Cache.get_financial_metrics (c : Cache) (k : String) :
    Option (List MetricsDict) :=
  assocGet c.financial_metrics k

/-- Modelled from the spec: cache set for the financial-metrics section. -/
def Cache.set_financial_metrics (c : Cache) (k : String)
    (v : List MetricsDict) : Cache :=
  { c with financial_metrics := assocSet c.financial_metrics k v }

/-- Interface of the provider adapter (`src/tools/ibkr.py`) reduced to the two
operations the façade consumes; session management is adapter-internal and
never observed by the façade.  `get_price_history` yields the rows of the
returned DataFrame; `get_fundamentals` takes ticker and report_type and yields
the parsed report, `none` standing for the falsy empty-string result of the
real client. -/
structure IBKRClient where
  get_price_history : String → String → String → List Bar
  get_fundamentals : String → String → Option Xml

/-- Row normalisation inside `get_prices` (api.py lines 32-42): volume coerced
to int, timestamp rendered to the canonical string. -/
def rowToPrice (b : Bar) : Price :=
  { open_ := b.open_, close := b.close, high := b.high, low := b.low,
    volume := pyInt b.volume, time := b.time }

/-- Embedding of `get_prices` (api.py lines 21-49).  Returns the price list,
the cache after the call, and the number of provider invocations performed.
The walrus `if cached_data := _cache.get_prices(cache_key):` takes the hit
branch only on a non-None, non-empty stored list. -/
def get_prices (ib : IBKRClient) (c : Cache)
    (ticker start_date end_date : String) : List Price × Cache × Nat :=
  let cache_key := price_cache_key ticker start_date end_date
  let fetched :=
    let prices := (ib.get_price_history ticker start_date end_date).map rowToPrice
    if prices = [] then ([], c, 1)
    else (prices, c.set_prices cache_key (prices.map Price.model_dump), 1)
  match c.get_prices cache_key with
  | some (d :: ds) => ((d :: ds).map PriceDict.toPrice, c, 0)
  | some [] => fetched
  | none => fetched

/-- Embedding of `get_financial_metrics` (api.py lines 52-94).  On a cache
miss it fetches the fundamentals report, parses market capitalisation out of
the MKTCAP-or-MarketCap field (a failing `float()` is swallowed by the
`except ValueError: pass`), builds a singleton record and stores it.  Returns
the record list, the cache after the call, and the provider-invocation
count. -/
def get_financial_metrics (ib : IBKRClient) (c : Cache)
    (ticker end_date : String) (period : String) (limit : Int) :
    List FinancialMetrics × Cache × Nat :=
  let cache_key := metrics_cache_key ticker period end_date limit
  let fetched :=
    let base : FinancialMetrics :=
      { ticker := ticker, report_period := end_date, period := period,
        currency := "USD", market_cap := none }
    let m : FinancialMetrics :=
      match ib.get_fundamentals ticker "ReportsFinStatements" with
      | none => base
      | some doc =>
          match pyOr (findtext "MKTCAP" doc) (findtext "MarketCap" doc) with
          | none => base
          | some v =>
              if v = "" then base
              else
                match pyFloat v with
                | some x => { base with market_cap := some x }
                | none => base
    let financial_metrics := [m]
    if financial_metrics = [] then ([], c, 1)
    else (financial_metrics,
          c.set_financial_metrics cache_key
            (financial_metrics.map FinancialMetrics.model_dump), 1)
  match c.get_financial_metrics cache_key with
  | some (d :: ds) => ((d :: ds).map MetricsDict.toMetrics, c, 0)
  | some [] => fetched
  | none => fetched

/-- Line-item record: declared by the data model but never populated by this
provider (spec §3); its fields are irrelevant to the façade. -/
structure LineItem
deriving DecidableEq

/-- Insider-trade record: declared but never populated by this provider. -/
structure InsiderTrade
deriving DecidableEq

/-- Company-news record: declared but never populated by this provider. -/
structure CompanyNews
deriving DecidableEq

/-- Embedding of `search_line_items` (api.py lines 97-105): IBKR offers no
granular line-item search. -/
def search_line_items (ticker : String) (line_items : List String)
    (end_date : String) (period : String) (limit : Int) : List LineItem := []

/-- Embedding of `get_insider_trades` (api.py lines 108-115): IBKR offers no
insider-trade data. -/
def get_insider_trades (ticker : String) (end_date : String)
    (start_date : Option String) (limit : Int) : List InsiderTrade := []

/-- Embedding of `get_company_news` (api.py lines 118-125): IBKR offers no
news feed. -/
def get_company_news (ticker : String) (end_date : String)
    (start_date : Option String) (limit : Int) : List CompanyNews := []

/-- Embedding of `get_market_cap` (api.py lines 128-157).  `today` is the
value of `datetime.datetime.now().strftime("%Y-%m-%d")` at call time, passed
in explicitly.  On the current-date path a snapshot report is fetched and
parsed directly; otherwise the call delegates to `get_financial_metrics` and
the falsy test `if not market_cap` maps both a missing and a zero market cap
to `None`. -/
def get_market_cap (ib : IBKRClient) (today : String) (c : Cache)
    (ticker end_date : String) : Option Rat × Cache × Nat :=
  if end_date = today then
    let r : Option Rat :=
      match ib.get_fundamentals ticker "ReportSnapshot" with
      | none => none
      | some doc =>
          match pyOr (findtext "MKTCAP" doc) (findtext "MarketCap" doc) with
          | none => none
          | some v => if v = "" then none else pyFloat v
    (r, c, 1)
  else
    let (financial_metrics, c2, n) :=
      get_financial_metrics ib c ticker end_date "ttm" 10
    match financial_metrics with
    | [] => (none, c2, n)
    | m :: _ =>
        match m.market_cap with
        | none => (none, c2, n)
        | some market_cap =>
            if market_cap = 0 then (none, c2, n) else (some market_cap, c2, n)

/-! Concrete fixtures used by witnesses and counterexamples. -/

/-- The empty cache. -/
def emptyCache : Cache := { prices := [], financial_metrics := [] }

/-- A concrete OHLCV row. -/
def sampleBar : Bar :=
  { open_ := 10, close := 11, high := 12, low := 9, volume := 100,
    time := "2024-01-02 00:00:00" }

/-- Client fixture returning one price row and no fundamentals report. -/
def ibOneBar : IBKRClient :=
  { get_price_history := fun _ _ _ => [sampleBar],
    get_fundamentals := fun _ _ => none }

/-- Client fixture returning no rows and no report. -/
def ibNoData : IBKRClient :=
  { get_price_history := fun _ _ _ => [],
    get_fundamentals := fun _ _ => none }

/-- Client fixture whose every fundamentals report reads MKTCAP 0. -/
def ibZeroCap : IBKRClient :=
  { get_price_history := fun _ _ _ => [],
    get_fundamentals := fun _ _ => some [("MKTCAP", "0")] }

/-- Client fixture whose reports carry only a MarketCap field (no MKTCAP). -/
def ibMarketCapOnly : IBKRClient :=
  { get_price_history := fun _ _ _ => [],
    get_fundamentals := fun _ _ => some [("MarketCap", "1234")] }

/-- Client fixture whose reports carry both fields with different values. -/
def ibBothCaps : IBKRClient :=
  { get_price_history := fun _ _ _ => [],
    get_fundamentals := fun _ _ => some [("MKTCAP", "7"), ("MarketCap", "9")] }

/-- Client fixture whose reports carry a malformed MKTCAP text. -/
def ibBadCap : IBKRClient :=
  { get_price_history := fun _ _ _ => [],
    get_fundamentals := fun _ _ => some [("MKTCAP", "n/a")] }

/-- A cache fixture already holding one financial-metrics record. -/
def cacheAlt : Cache :=
  { prices := [],
    financial_metrics :=
      [(metrics_cache_key "AAPL" "ttm" "2024-01-05" 10,
        [{ ticker := "AAPL", report_period := "2024-01-05", period := "ttm",
           currency := "USD", market_cap := some 5 }])] }

/-! Helper lemmas: the stored form round-trips, and a freshly set key is
found by the exact-match lookup. -/

@[simp]
theorem PriceDict.toPrice_model_dump (p : Price) : p.model_dump.toPrice = p := rfl

@[simp]
theorem MetricsDict.toMetrics_model_dump (m : FinancialMetrics) :
    m.model_dump.toMetrics = m := rfl

theorem map_toPrice_map_model_dump (l : List Price) :
    (l.map Price.model_dump).map PriceDict.toPrice = l := by
  simp [List.map_map, Function.comp_def]

@[simp]
theorem assocGet_assocSet_self {α : Type} (m : List (String × α)) (k : String)
    (v : α) : assocGet (assocSet m k v) k = some v := by
  simp [assocGet, assocSet]

@[simp]
theorem Cache.get_prices_set_prices (c : Cache) (k : String)
    (v : List PriceDict) : (c.set_prices k v).get_prices k = some v := by
  simp [Cache.get_prices, Cache.set_prices]

@[simp]
theorem Cache.get_fm_set_fm (c : Cache) (k : String) (v : List MetricsDict) :
    (c.set_financial_metrics k v).get_financial_metrics k = some v := by
  simp [Cache.get_financial_metrics, Cache.set_financial_metrics]

theorem pyFloat_empty : pyFloat "" = none := rfl

/-- C9: `search_line_items`, `get_insider_trades` and `get_company_news`
return the empty collection for every input; they consult neither the cache
nor the provider, so the result is deterministic and no error is raised. -/
theorem unsupported_categories_empty (ticker end_date period : String)
    (line_items : List String) (start_date : Option String)
    (limit limit2 limit3 : Int) :
    search_line_items ticker line_items end_date period limit = [] ∧
    get_insider_trades ticker end_date start_date limit2 = [] ∧
    get_company_news ticker end_date start_date limit3 = [] :=
  ⟨rfl, rfl, rfl⟩

/-- C2 counterexample: with a provider that yields no fundamentals report,
`get_financial_metrics` on an empty cache still mutates the cache store,
contradicting "cache mutation only on non-empty fetch results". -/
theorem metricsCache_mutated_on_empty_report :
    ibNoData.get_fundamentals "AAPL" "ReportsFinStatements" = none ∧
    (get_financial_metrics ibNoData emptyCache "AAPL" "2024-01-05" "ttm" 10).2.1 ≠
      emptyCache :=
  ⟨rfl, by decide⟩

/-- C2 amended: `get_prices` leaves the cache unchanged when the provider
returns no rows, but a cache-miss `get_financial_metrics` call always stores a
singleton record under its key — even when the provider returns no report (the
record then has every metric field absent). -/
theorem cache_mutation_on_fetch (ib : IBKRClient) (c : Cache)
    (ticker start_date end_date period : String) (limit : Int)
    (hpm : c.get_prices (price_cache_key ticker start_date end_date) = none)
    (hrows : ib.get_price_history ticker start_date end_date = [])
    (hmm : c.get_financial_metrics
      (metrics_cache_key ticker period end_date limit) = none) :
    (get_prices ib c ticker start_date end_date).2.1 = c ∧
    ∃ m : FinancialMetrics,
      (get_financial_metrics ib c ticker end_date period limit).1 = [m] ∧
      (get_financial_metrics ib c ticker end_date period limit).2.1 =
        c.set_financial_metrics (metrics_cache_key ticker period end_date limit)
          [m.model_dump] := by
  constructor
  · simp [get_prices, hpm, hrows]
  · rcases hf : ib.get_fundamentals ticker "ReportsFinStatements" with _ | doc
    · refine ⟨{ ticker := ticker, report_period := end_date, period := period,
                currency := "USD", market_cap := none }, ?_, ?_⟩ <;>
        simp [get_financial_metrics, hmm, hf]
    · rcases ho : pyOr (findtext "MKTCAP" doc) (findtext "MarketCap" doc) with _ | v
      · refine ⟨{ ticker := ticker, report_period := end_date, period := period,
                  currency := "USD", market_cap := none }, ?_, ?_⟩ <;>
          simp [get_financial_metrics, hmm, hf, ho]
      · by_cases hv : v = ""
        · refine ⟨{ ticker := ticker, report_period := end_date, period := period,
                    currency := "USD", market_cap := none }, ?_, ?_⟩ <;>
            simp [get_financial_metrics, hmm, hf, ho, hv]
        · rcases hp : pyFloat v with _ | x
          · refine ⟨{ ticker := ticker, report_period := end_date, period := period,
                      currency := "USD", market_cap := none }, ?_, ?_⟩ <;>
              simp [get_financial_metrics, hmm, hf, ho, hv, hp]
          · refine ⟨{ ticker := ticker, report_period := end_date, period := period,
                      currency := "USD", market_cap := some x }, ?_, ?_⟩ <;>
              simp [get_financial_metrics, hmm, hf, ho, hv, hp]

/-- C2 amended, witness at a concrete no-data provider and the empty cache. -/
theorem cache_mutation_on_fetch_witness :
    (get_prices ibNoData emptyCache "AAPL" "2024-01-01" "2024-01-31").2.1 =
      emptyCache ∧
    ∃ m : FinancialMetrics,
      (get_financial_metrics ibNoData emptyCache "AAPL" "2024-01-31" "ttm" 10).1 =
        [m] ∧
      (get_financial_metrics ibNoData emptyCache "AAPL" "2024-01-31" "ttm" 10).2.1 =
        emptyCache.set_financial_metrics
          (metrics_cache_key "AAPL" "ttm" "2024-01-31" 10) [m.model_dump] :=
  cache_mutation_on_fetch ibNoData emptyCache "AAPL" "2024-01-01" "2024-01-31"
    "ttm" 10 rfl rfl rfl

/-- C3: on a cache miss where the provider returns zero price rows,
`get_prices` returns the empty list, stores nothing (the cache after the call
is the cache before it), and a subsequent identical request reaches the
provider again (one further provider invocation). -/
theorem getPrices_empty_not_cached (ib : IBKRClient) (c : Cache)
    (ticker start_date end_date : String)
    (hmiss : c.get_prices (price_cache_key ticker start_date end_date) = none)
    (hempty : ib.get_price_history ticker start_date end_date = []) :
    get_prices ib c ticker start_date end_date = ([], c, 1) ∧
    (get_prices ib (get_prices ib c ticker start_date end_date).2.1
        ticker start_date end_date).2.2 = 1 := by
  have h1 : get_prices ib c ticker start_date end_date = ([], c, 1) := by
    simp [get_prices, hmiss, hempty]
  exact ⟨h1, by simp [h1]⟩

/-- C3 witness at a concrete no-data provider and the empty cache. -/
theorem getPrices_empty_not_cached_witness :
    get_prices ibNoData emptyCache "AAPL" "2024-01-01" "2024-01-31" =
      ([], emptyCache, 1) ∧
    (get_prices ibNoData
        (get_prices ibNoData emptyCache "AAPL" "2024-01-01" "2024-01-31").2.1
        "AAPL" "2024-01-01" "2024-01-31").2.2 = 1 :=
  getPrices_empty_not_cached ibNoData emptyCache "AAPL" "2024-01-01" "2024-01-31"
    rfl rfl

/-- C1: after a `get_prices` call that fetched and stored a non-empty price
list, a second call with the same ticker and date range returns an equal list,
leaves the cache as it is, and performs zero provider invocations. -/
theorem getPrices_cache_roundtrip (ib : IBKRClient) (c : Cache)
    (ticker start_date end_date : String)
    (hmiss : c.get_prices (price_cache_key ticker start_date end_date) = none)
    (hfetch : ib.get_price_history ticker start_date end_date ≠ []) :
    (get_prices ib c ticker start_date end_date).1 ≠ [] ∧
    get_prices ib (get_prices ib c ticker start_date end_date).2.1
        ticker start_date end_date =
      ((get_prices ib c ticker start_date end_date).1,
       (get_prices ib c ticker start_date end_date).2.1, 0) := by
  obtain ⟨b, bs, hb⟩ :
      ∃ b bs, ib.get_price_history ticker start_date end_date = b :: bs := by
    rcases h : ib.get_price_history ticker start_date end_date with _ | ⟨b, bs⟩
    · exact absurd h hfetch
    · exact ⟨b, bs, rfl⟩
  have h1 : get_prices ib c ticker start_date end_date =
      ((b :: bs).map rowToPrice,
       c.set_prices (price_cache_key ticker start_date end_date)
         (((b :: bs).map rowToPrice).map Price.model_dump), 1) := by
    simp [get_prices, hmiss, hb]
  have h2 : get_prices ib
      (c.set_prices (price_cache_key ticker start_date end_date)
        (((b :: bs).map rowToPrice).map Price.model_dump))
      ticker start_date end_date =
      ((b :: bs).map rowToPrice,
       c.set_prices (price_cache_key ticker start_date end_date)
         (((b :: bs).map rowToPrice).map Price.model_dump), 0) := by
    simp [get_prices, map_toPrice_map_model_dump]
  refine ⟨?_, ?_⟩
  · rw [h1]; simp
  · rw [h1]; simpa using h2

/-- C1 witness at a one-row provider and the empty cache. -/
theorem getPrices_cache_roundtrip_witness :
    (get_prices ibOneBar emptyCache "AAPL" "2024-01-01" "2024-01-31").1 ≠ [] ∧
    get_prices ibOneBar
        (get_prices ibOneBar emptyCache "AAPL" "2024-01-01" "2024-01-31").2.1
        "AAPL" "2024-01-01" "2024-01-31" =
      ((get_prices ibOneBar emptyCache "AAPL" "2024-01-01" "2024-01-31").1,
       (get_prices ibOneBar emptyCache "AAPL" "2024-01-01" "2024-01-31").2.1, 0) :=
  getPrices_cache_roundtrip ibOneBar emptyCache "AAPL" "2024-01-01" "2024-01-31"
    rfl (by decide)

/-- C5: with end_date equal to the current date, `get_market_cap` takes the
live-snapshot path: the cache after the call is the cache before it, the
result does not depend on the cache at all, and it is a function of the
provider's ReportSnapshot fetch alone (any client agreeing on that fetch
yields the same result). -/
theorem getMarketCap_current_date_bypass (ib ib2 : IBKRClient) (today : String)
    (c c2 : Cache) (ticker : String)
    (hsnap : ib2.get_fundamentals ticker "ReportSnapshot" =
      ib.get_fundamentals ticker "ReportSnapshot") :
    (get_market_cap ib today c ticker today).2.1 = c ∧
    (get_market_cap ib today c ticker today).2.2 = 1 ∧
    (get_market_cap ib today c2 ticker today).1 =
      (get_market_cap ib today c ticker today).1 ∧
    (get_market_cap ib2 today c ticker today).1 =
      (get_market_cap ib today c ticker today).1 := by
  refine ⟨?_, ?_, ?_, ?_⟩ <;> simp [get_market_cap, hsnap]

/-- C5 witness: two clients agreeing on the snapshot fetch, an empty and a
populated metrics cache. -/
theorem getMarketCap_current_date_bypass_witness :
    (get_market_cap ibZeroCap "2024-01-05" emptyCache "AAPL" "2024-01-05").2.1 =
      emptyCache ∧
    (get_market_cap ibZeroCap "2024-01-05" emptyCache "AAPL" "2024-01-05").2.2 =
      1 ∧
    (get_market_cap ibZeroCap "2024-01-05" cacheAlt "AAPL" "2024-01-05").1 =
      (get_market_cap ibZeroCap "2024-01-05" emptyCache "AAPL" "2024-01-05").1 ∧
    (get_market_cap ibZeroCap "2024-01-05" emptyCache "AAPL" "2024-01-05").1 =
      (get_market_cap ibZeroCap "2024-01-05" emptyCache "AAPL" "2024-01-05").1 :=
  getMarketCap_current_date_bypass ibZeroCap ibZeroCap "2024-01-05" emptyCache
    cacheAlt "AAPL" rfl

/-- C8: with end_date different from the current date, `get_market_cap`
delegates to `get_financial_metrics` (same resulting cache) and returns the
first record's market_cap, mapped to absent when the metrics list is empty,
the value is missing, or the value is zero. -/
theorem getMarketCap_delegate_absent_on_zero (ib : IBKRClient) (today : String)
    (c : Cache) (ticker end_date : String) (h : end_date ≠ today) :
    (get_market_cap ib today c ticker end_date).2.1 =
      (get_financial_metrics ib c ticker end_date "ttm" 10).2.1 ∧
    (get_market_cap ib today c ticker end_date).1 =
      (match (get_financial_metrics ib c ticker end_date "ttm" 10).1 with
       | [] => none
       | m :: _ =>
           match m.market_cap with
           | none => none
           | some v => if v = 0 then none else some v) := by
  rcases hg : get_financial_metrics ib c ticker end_date "ttm" 10 with ⟨fm, c2, n⟩
  rcases fm with _ | ⟨m, rest⟩
  · simp [get_market_cap, h, hg]
  · rcases hm : m.market_cap with _ | v
    · simp [get_market_cap, h, hg, hm]
    · by_cases hv : v = 0 <;> simp [get_market_cap, h, hg, hm, hv]

/-- C8 witness at a no-report provider and a non-current end date. -/
theorem getMarketCap_delegate_absent_on_zero_witness :
    (get_market_cap ibNoData "2024-01-05" emptyCache "AAPL" "2024-01-04").2.1 =
      (get_financial_metrics ibNoData emptyCache "AAPL" "2024-01-04" "ttm" 10).2.1 ∧
    (get_market_cap ibNoData "2024-01-05" emptyCache "AAPL" "2024-01-04").1 =
      (match (get_financial_metrics ibNoData emptyCache "AAPL" "2024-01-04"
          "ttm" 10).1 with
       | [] => none
       | m :: _ =>
           match m.market_cap with
           | none => none
           | some v => if v = 0 then none else some v) :=
  getMarketCap_delegate_absent_on_zero ibNoData "2024-01-05" emptyCache "AAPL"
    "2024-01-04" (by decide)

/-- C10: the two paths of `get_market_cap` disagree on a zero market cap.  On
the current-date path a snapshot field that parses to zero is returned as the
present value 0; on the delegate path a first record whose market_cap is 0 is
mapped to absent by the falsy test `if not market_cap`. -/
theorem market_cap_zero_asymmetry (ib : IBKRClient) (today : String) (c : Cache)
    (ticker end_date : String) (doc : Xml) (v : String) (m : FinancialMetrics)
    (rest : List FinancialMetrics)
    (hsnap : ib.get_fundamentals ticker "ReportSnapshot" = some doc)
    (hval : pyOr (findtext "MKTCAP" doc) (findtext "MarketCap" doc) = some v)
    (hv : pyFloat v = some 0)
    (hne : end_date ≠ today)
    (hm : (get_financial_metrics ib c ticker end_date "ttm" 10).1 = m :: rest)
    (hm0 : m.market_cap = some 0) :
    (get_market_cap ib today c ticker today).1 = some 0 ∧
    (get_market_cap ib today c ticker end_date).1 = none := by
  have hvne : v ≠ "" := by
    intro hveq
    rw [hveq, pyFloat_empty] at hv
    exact Option.noConfusion hv
  constructor
  · simp [get_market_cap, hsnap, hval, hvne, hv]
  · rcases hg : get_financial_metrics ib c ticker end_date "ttm" 10 with ⟨fm, c2, n⟩
    rw [hg] at hm
    simp only at hm
    subst hm
    simp [get_market_cap, hne, hg, hm0]

/-- C10 witness: one client whose every report reads MKTCAP 0, queried on the
current date and on an earlier date. -/
theorem market_cap_zero_asymmetry_witness :
    (get_market_cap ibZeroCap "2024-01-05" emptyCache "AAPL" "2024-01-05").1 =
      some 0 ∧
    (get_market_cap ibZeroCap "2024-01-05" emptyCache "AAPL" "2024-01-04").1 =
      none :=
  market_cap_zero_asymmetry ibZeroCap "2024-01-05" emptyCache "AAPL" "2024-01-04"
    [("MKTCAP", "0")] "0"
    { ticker := "AAPL", report_period := "2024-01-04", period := "ttm",
      currency := "USD", market_cap := some 0 } []
    rfl rfl (by decide) (by decide) (by decide) rfl

/-- C6: market-cap parsing takes MKTCAP first and falls back to MarketCap.
With MKTCAP absent and a parseable MarketCap text, both
`get_financial_metrics` and the live path of `get_market_cap` extract the
numeric value; with a parseable MKTCAP text present, its value wins
regardless of MarketCap. -/
theorem market_cap_field_fallback (ib ib2 : IBKRClient) (today : String)
    (c : Cache) (ticker end_date period : String) (limit : Int)
    (doc doc2 : Xml) (v w : String) (x y : Rat)
    (hmiss : c.get_financial_metrics
      (metrics_cache_key ticker period end_date limit) = none)
    (hrep : ib.get_fundamentals ticker "ReportsFinStatements" = some doc)
    (hsnap : ib.get_fundamentals ticker "ReportSnapshot" = some doc)
    (hno : findtext "MKTCAP" doc = none)
    (hmc : findtext "MarketCap" doc = some v)
    (hv : pyFloat v = some x)
    (hsnap2 : ib2.get_fundamentals ticker "ReportSnapshot" = some doc2)
    (hk : findtext "MKTCAP" doc2 = some w)
    (hw : pyFloat w = some y) :
    ((get_financial_metrics ib c ticker end_date period limit).1.map
        FinancialMetrics.market_cap) = [some x] ∧
    (get_market_cap ib today c ticker today).1 = some x ∧
    (get_market_cap ib2 today c ticker today).1 = some y := by
  have hvne : v ≠ "" := by
    intro h
    rw [h, pyFloat_empty] at hv
    exact Option.noConfusion hv
  have hwne : w ≠ "" := by
    intro h
    rw [h, pyFloat_empty] at hw
    exact Option.noConfusion hw
  refine ⟨?_, ?_, ?_⟩
  · simp [get_financial_metrics, hmiss, hrep, pyOr, hno, hmc, hvne, hv]
  · simp [get_market_cap, hsnap, pyOr, hno, hmc, hvne, hv]
  · simp [get_market_cap, hsnap2, pyOr, hk, hwne, hw]

/-- C6 witness: a report holding only MarketCap = "1234" yields 1234 on both
paths, and a report holding MKTCAP = "7" next to MarketCap = "9" yields 7. -/
theorem market_cap_field_fallback_witness :
    ((get_financial_metrics ibMarketCapOnly emptyCache "AAPL" "2024-01-05"
        "ttm" 10).1.map FinancialMetrics.market_cap) = [some 1234] ∧
    (get_market_cap ibMarketCapOnly "2024-01-05" emptyCache "AAPL"
        "2024-01-05").1 = some 1234 ∧
    (get_market_cap ibBothCaps "2024-01-05" emptyCache "AAPL" "2024-01-05").1 =
      some 7 :=
  market_cap_field_fallback ibMarketCapOnly ibBothCaps "2024-01-05" emptyCache
    "AAPL" "2024-01-05" "ttm" 10 [("MarketCap", "1234")]
    [("MKTCAP", "7"), ("MarketCap", "9")] "1234" "7" 1234 7
    rfl rfl rfl (by decide) (by decide) (by decide) rfl (by decide) (by decide)

/-- C7: a market-cap field text that is present, truthy and unparseable is
swallowed (`except ValueError: pass` in `get_financial_metrics`, the same
pattern on the live path): the record's market_cap stays absent and the live
result is absent; both embedded functions are total, so no error escapes. -/
theorem market_cap_malformed_tolerance (ib : IBKRClient) (today : String)
    (c : Cache) (ticker end_date period : String) (limit : Int)
    (doc : Xml) (v : String)
    (hmiss : c.get_financial_metrics
      (metrics_cache_key ticker period end_date limit) = none)
    (hrep : ib.get_fundamentals ticker "ReportsFinStatements" = some doc)
    (hsnap : ib.get_fundamentals ticker "ReportSnapshot" = some doc)
    (hval : pyOr (findtext "MKTCAP" doc) (findtext "MarketCap" doc) = some v)
    (hne : v ≠ "")
    (hbad : pyFloat v = none) :
    ((get_financial_metrics ib c ticker end_date period limit).1.map
        FinancialMetrics.market_cap) = [none] ∧
    (get_market_cap ib today c ticker today).1 = none := by
  constructor
  · simp [get_financial_metrics, hmiss, hrep, hval, hne, hbad]
  · simp [get_market_cap, hsnap, hval, hne, hbad]

/-- C7 witness: the malformed text "n/a" is treated as absent on both paths. -/
theorem market_cap_malformed_tolerance_witness :
    ((get_financial_metrics ibBadCap emptyCache "AAPL" "2024-01-05" "ttm"
        10).1.map FinancialMetrics.market_cap) = [none] ∧
    (get_market_cap ibBadCap "2024-01-05" emptyCache "AAPL" "2024-01-05").1 =
      none :=
  market_cap_malformed_tolerance ibBadCap "2024-01-05" emptyCache "AAPL"
    "2024-01-05" "ttm" 10 [("MKTCAP", "n/a")] "n/a"
    rfl rfl rfl (by decide) (by decide) (by decide)

/-! Arithmetic of the decimal rendering used in the metrics cache key, and
injectivity of underscore-joined keys over underscore-free components. -/

theorem digitsToNat_append (xs : List Char) (c : Char) :
    digitsToNat (xs ++ [c]) = digitsToNat xs * 10 + (c.toNat - 48) := by
  simp [digitsToNat, List.foldl_append]

theorem digitChar_isDigit (d : Nat) (h : d < 10) : (Nat.digitChar d).isDigit := by
  interval_cases d <;> decide

theorem digitChar_val (d : Nat) (h : d < 10) : (Nat.digitChar d).toNat - 48 = d := by
  interval_cases d <;> decide

theorem mem_natStrGo_isDigit (fuel : Nat) :
    ∀ n, n < fuel → ∀ c ∈ natStrGo fuel n, c.isDigit := by
  induction fuel with
  | zero => omega
  | succ fuel ih =>
    intro n hn c hc
    rw [natStrGo] at hc
    by_cases h10 : n < 10
    · simp [h10] at hc
      subst hc
      exact digitChar_isDigit n h10
    · simp [h10] at hc
      rcases hc with hc | hc
      · have hrec : n / 10 < fuel := by
          have := Nat.div_lt_self (show 0 < n by omega) (show 1 < 10 by omega)
          omega
        exact ih (n / 10) hrec c hc
      · subst hc
        exact digitChar_isDigit (n % 10) (Nat.mod_lt _ (by omega))

theorem digitsToNat_natStrGo (fuel : Nat) :
    ∀ n, n < fuel → digitsToNat (natStrGo fuel n) = n := by
  induction fuel with
  | zero => omega
  | succ fuel ih =>
    intro n hn
    rw [natStrGo]
    by_cases h10 : n < 10
    · simp only [h10, if_true]
      have hone : digitsToNat [Nat.digitChar n] = (Nat.digitChar n).toNat - 48 := by
        simp [digitsToNat]
      rw [hone, digitChar_val n h10]
    · have hrec : n / 10 < fuel := by
        have := Nat.div_lt_self (show 0 < n by omega) (show 1 < 10 by omega)
        omega
      simp only [h10, if_false]
      rw [digitsToNat_append, ih (n / 10) hrec,
        digitChar_val (n % 10) (Nat.mod_lt _ (by omega))]
      omega

theorem digitsToNat_natStr (n : Nat) : digitsToNat (natStr n) = n :=
  digitsToNat_natStrGo (n + 1) n (by omega)

theorem natStr_isDigit (n : Nat) : ∀ c ∈ natStr n, c.isDigit :=
  mem_natStrGo_isDigit (n + 1) n (by omega)

theorem natStr_injective : Function.Injective natStr := by
  intro a b h
  have ha := digitsToNat_natStr a
  rw [h, digitsToNat_natStr] at ha
  omega

theorem intStr_injective : Function.Injective intStr := by
  intro a b h
  cases a with
  | ofNat m =>
    cases b with
    | ofNat k =>
      have hd : natStr m = natStr k := congrArg String.data h
      exact congrArg Int.ofNat (natStr_injective hd)
    | negSucc k =>
      exfalso
      have hd : natStr m = '-' :: natStr (k + 1) := congrArg String.data h
      have hmem : ('-' : Char) ∈ natStr m := by
        rw [hd]
        exact List.mem_cons_self _ _
      exact absurd (natStr_isDigit m '-' hmem) (by decide)
  | negSucc m =>
    cases b with
    | ofNat k =>
      exfalso
      have hd : '-' :: natStr (m + 1) = natStr k := congrArg String.data h
      have hmem : ('-' : Char) ∈ natStr k := by
        rw [← hd]
        exact List.mem_cons_self _ _
      exact absurd (natStr_isDigit k '-' hmem) (by decide)
    | negSucc k =>
      have hd : '-' :: natStr (m + 1) = '-' :: natStr (k + 1) := congrArg String.data h
      have ht : natStr (m + 1) = natStr (k + 1) := (List.cons.inj hd).2
      have hmk : m = k := by
        have := natStr_injective ht
        omega
      exact congrArg Int.negSucc hmk

theorem underscore_not_mem_natStr (n : Nat) : '_' ∉ natStr n := by
  intro h
  exact absurd (natStr_isDigit n '_' h) (by decide)

theorem underscore_not_mem_intStr (l : Int) : '_' ∉ (intStr l).data := by
  cases l with
  | ofNat n => exact underscore_not_mem_natStr n
  | negSucc n =>
    intro h
    rcases List.mem_cons.mp h with h | h
    · exact absurd h (by decide)
    · exact underscore_not_mem_natStr (n + 1) h

theorem append_under_inj :
    ∀ (a c b d : List Char), '_' ∉ a → '_' ∉ c →
      a ++ '_' :: b = c ++ '_' :: d → a = c ∧ b = d := by
  intro a
  induction a with
  | nil =>
    intro c b d ha hc h
    cases c with
    | nil => simpa using h
    | cons y ys =>
      exfalso
      rw [List.nil_append, List.cons_append] at h
      obtain ⟨h1, -⟩ := List.cons.inj h
      apply hc
      rw [← h1]
      exact List.mem_cons_self _ _
  | cons x xs ih =>
    intro c b d ha hc h
    cases c with
    | nil =>
      exfalso
      rw [List.nil_append, List.cons_append] at h
      obtain ⟨h1, -⟩ := List.cons.inj h
      apply ha
      rw [h1]
      exact List.mem_cons_self _ _
    | cons y ys =>
      rw [List.cons_append, List.cons_append] at h
      obtain ⟨h1, h2⟩ := List.cons.inj h
      have ha2 : '_' ∉ xs := fun hm => ha (List.mem_cons_of_mem _ hm)
      have hc2 : '_' ∉ ys := fun hm => hc (List.mem_cons_of_mem _ hm)
      obtain ⟨hac, hbd⟩ := ih ys b d ha2 hc2 h2
      exact ⟨by rw [h1, hac], hbd⟩

theorem price_cache_key_data (t s e : String) :
    (price_cache_key t s e).data = t.data ++ '_' :: (s.data ++ '_' :: e.data) := by
  have hu : ("_" : String).data = ['_'] := rfl
  simp [price_cache_key, String.data_append, hu]

theorem metrics_cache_key_data (t p e : String) (l : Int) :
    (metrics_cache_key t p e l).data =
      t.data ++ '_' :: (p.data ++ '_' :: (e.data ++ '_' :: (intStr l).data)) := by
  have hu : ("_" : String).data = ['_'] := rfl
  simp [metrics_cache_key, String.data_append, hu]

theorem price_cache_key_inj (t1 s1 e1 t2 s2 e2 : String)
    (ht1 : '_' ∉ t1.data) (hs1 : '_' ∉ s1.data)
    (ht2 : '_' ∉ t2.data) (hs2 : '_' ∉ s2.data)
    (h : price_cache_key t1 s1 e1 = price_cache_key t2 s2 e2) :
    t1 = t2 ∧ s1 = s2 ∧ e1 = e2 := by
  have hd : t1.data ++ '_' :: (s1.data ++ '_' :: e1.data) =
      t2.data ++ '_' :: (s2.data ++ '_' :: e2.data) := by
    rw [← price_cache_key_data, ← price_cache_key_data, h]
  obtain ⟨h1, h2⟩ := append_under_inj _ _ _ _ ht1 ht2 hd
  obtain ⟨h3, h4⟩ := append_under_inj _ _ _ _ hs1 hs2 h2
  exact ⟨String.ext h1, String.ext h3, String.ext h4⟩

theorem metrics_cache_key_inj (t1 p1 e1 t2 p2 e2 : String) (l1 l2 : Int)
    (ht1 : '_' ∉ t1.data) (hp1 : '_' ∉ p1.data) (he1 : '_' ∉ e1.data)
    (ht2 : '_' ∉ t2.data) (hp2 : '_' ∉ p2.data) (he2 : '_' ∉ e2.data)
    (h : metrics_cache_key t1 p1 e1 l1 = metrics_cache_key t2 p2 e2 l2) :
    t1 = t2 ∧ p1 = p2 ∧ e1 = e2 ∧ l1 = l2 := by
  have hd : t1.data ++ '_' :: (p1.data ++ '_' :: (e1.data ++ '_' :: (intStr l1).data)) =
      t2.data ++ '_' :: (p2.data ++ '_' :: (e2.data ++ '_' :: (intStr l2).data)) := by
    rw [← metrics_cache_key_data, ← metrics_cache_key_data, h]
  obtain ⟨h1, h2⟩ := append_under_inj _ _ _ _ ht1 ht2 hd
  obtain ⟨h3, h4⟩ := append_under_inj _ _ _ _ hp1 hp2 h2
  obtain ⟨h5, h6⟩ := append_under_inj _ _ _ _ he1 he2 h4
  exact ⟨String.ext h1, String.ext h3, String.ext h5,
    intStr_injective (String.ext h6)⟩

/-- C4 counterexample: two price queries with pairwise different parameters
build the very same cache-key string, because the underscore separator also
occurs inside a parameter ("A_B", "C", "D" versus "A", "B_C", "D"). -/
theorem cache_key_collision :
    price_cache_key "A_B" "C" "D" = price_cache_key "A" "B_C" "D" ∧
    ¬ (("A_B" : String) = "A" ∧ ("C" : String) = "B_C" ∧
       ("D" : String) = "D") :=
  ⟨rfl, by decide⟩

/-- C4 amended: within each section, two cache-key strings are equal iff all
constituent query parameters are equal, provided the parameters left of the
last separator (ticker and start date for prices; ticker, period and end date
for metrics) contain no underscore; the rendered limit never contains one. -/
theorem cache_key_exact_match (t1 s1 e1 t2 s2 e2 mt1 p1 me1 mt2 p2 me2 : String)
    (l1 l2 : Int)
    (ht1 : '_' ∉ t1.data) (hs1 : '_' ∉ s1.data)
    (ht2 : '_' ∉ t2.data) (hs2 : '_' ∉ s2.data)
    (hmt1 : '_' ∉ mt1.data) (hp1 : '_' ∉ p1.data) (hme1 : '_' ∉ me1.data)
    (hmt2 : '_' ∉ mt2.data) (hp2 : '_' ∉ p2.data) (hme2 : '_' ∉ me2.data) :
    (price_cache_key t1 s1 e1 = price_cache_key t2 s2 e2 ↔
      (t1 = t2 ∧ s1 = s2 ∧ e1 = e2)) ∧
    (metrics_cache_key mt1 p1 me1 l1 = metrics_cache_key mt2 p2 me2 l2 ↔
      (mt1 = mt2 ∧ p1 = p2 ∧ me1 = me2 ∧ l1 = l2)) := by
  constructor
  · constructor
    · exact price_cache_key_inj t1 s1 e1 t2 s2 e2 ht1 hs1 ht2 hs2
    · rintro ⟨rfl, rfl, rfl⟩
      rfl
  · constructor
    · exact metrics_cache_key_inj mt1 p1 me1 mt2 p2 me2 l1 l2
        hmt1 hp1 hme1 hmt2 hp2 hme2
    · rintro ⟨rfl, rfl, rfl, rfl⟩
      rfl

/-- C4 amended, witness at concrete underscore-free parameters. -/
theorem cache_key_exact_match_witness :
    (price_cache_key "AAPL" "2024-01-01" "2024-01-31" =
        price_cache_key "MSFT" "2024-02-01" "2024-02-29" ↔
      (("AAPL" : String) = "MSFT" ∧ ("2024-01-01" : String) = "2024-02-01" ∧
       ("2024-01-31" : String) = "2024-02-29")) ∧
    (metrics_cache_key "AAPL" "ttm" "2024-01-31" 10 =
        metrics_cache_key "MSFT" "annual" "2024-02-29" 5 ↔
      (("AAPL" : String) = "MSFT" ∧ ("ttm" : String) = "annual" ∧
       ("2024-01-31" : String) = "2024-02-29" ∧ (10 : Int) = 5)) :=
  cache_key_exact_match "AAPL" "2024-01-01" "2024-01-31" "MSFT" "2024-02-01"
    "2024-02-29" "AAPL" "ttm" "2024-01-31" "MSFT" "annual" "2024-02-29" 10 5
    (by decide) (by decide) (by decide) (by decide) (by decide) (by decide)
    (by decide) (by decide) (by decide) (by decide)
